import Mathlib

/-!
Shallow embedding of the AgentMint token service core
(src/error.rs, src/token/sign.rs, src/token/verify.rs, src/jti/memory.rs,
src/policy.rs, src/handlers/mint.rs), with theorems settling the
specification claims about it.

Bytes are modelled as natural numbers below 256; byte strings as
`List Nat`. The external libraries (serde_json, ed25519-dalek) appear as
an abstract interface `Ext` whose standard contracts (serialization
round-trip, signature correctness) are hypotheses of the theorems that
need them.
-/

namespace AgentMint

/-! ### base64url without padding (base64 crate, URL_SAFE_NO_PAD) -/

/-- The base64url alphabet: value 0..63 to ASCII byte. -/
def valToByte (v : Nat) : Nat :=
  if v < 26 then 65 + v
  else if v < 52 then 71 + v
  else if v < 62 then v - 4
  else if v = 62 then 45
  else 95

/-- Inverse alphabet lookup: ASCII byte to 6-bit value. -/
def byteToVal (b : Nat) : Option Nat :=
  if 65 ≤ b ∧ b ≤ 90 then some (b - 65)
  else if 97 ≤ b ∧ b ≤ 122 then some (b - 71)
  else if 48 ≤ b ∧ b ≤ 57 then some (b + 4)
  else if b = 45 then some 62
  else if b = 95 then some 63
  else none

/-- Padless base64url encoding of a byte string. -/
def b64Encode : List Nat → List Nat
  | [] => []
  | [a] => [valToByte (a / 4), valToByte (a % 4 * 16)]
  | [a, b] =>
    [valToByte (a / 4), valToByte (a % 4 * 16 + b / 16), valToByte (b % 16 * 4)]
  | a :: b :: c :: rest =>
    valToByte (a / 4) :: valToByte (a % 4 * 16 + b / 16) ::
      valToByte (b % 16 * 4 + c / 64) :: valToByte (c % 64) :: b64Encode rest

/-- Padless base64url decoding. A leftover chunk of one character is
invalid, and nonzero trailing bits in the final chunk are rejected,
as in the base64 crate's strict decoder. -/
def b64Decode : List Nat → Option (List Nat)
  | [] => some []
  | [_] => none
  | [x, y] =>
    match byteToVal x, byteToVal y with
    | some vx, some vy =>
      if vy % 16 = 0 then some [vx * 4 + vy / 16] else none
    | _, _ => none
  | [x, y, z] =>
    match byteToVal x, byteToVal y, byteToVal z with
    | some vx, some vy, some vz =>
      if vz % 4 = 0 then some [vx * 4 + vy / 16, vy % 16 * 16 + vz / 4] else none
    | _, _, _ => none
  | x :: y :: z :: w :: rest =>
    match byteToVal x, byteToVal y, byteToVal z, byteToVal w with
    | some vx, some vy, some vz, some vw =>
      match b64Decode rest with
      | some tail =>
        some ((vx * 4 + vy / 16) :: (vy % 16 * 16 + vz / 4) :: (vz % 4 * 64 + vw) :: tail)
      | none => none
    | _, _, _, _ => none

/-! ### Error taxonomy (src/error.rs) -/

/-- The `Error` enum of src/error.rs. Variants wrapping a foreign error
type (rusqlite, serde_json, base64) keep only that error's display text. -/
inductive Err where
  | tokenExpired
  | invalidSignature
  | invalidToken (detail : String)
  | replayDetected (jti : String)
  | validation (msg : String)
  | serviceUnavailable (detail : String)
  | database (detail : String)
  | serialization (detail : String)
  | base64 (detail : String)
  | signing (detail : String)
deriving DecidableEq

/-- `client_message` of src/error.rs. -/
def clientMessage : Err → String
  | .tokenExpired => "token expired"
  | .invalidSignature => "invalid signature"
  | .invalidToken _ => "invalid token"
  | .replayDetected _ => "token rejected"
  | .validation msg => msg
  | .serviceUnavailable _ => "service temporarily unavailable"
  | .database _ => "internal error"
  | .serialization _ => "invalid request body"
  | .base64 _ => "invalid encoding"
  | .signing _ => "internal error"

/-- The status selected by `Error::into_response` in src/error.rs. -/
def statusOf : Err → Nat
  | .tokenExpired => 401
  | .invalidSignature => 401
  | .invalidToken _ => 401
  | .replayDetected _ => 409
  | .validation _ => 400
  | .base64 _ => 400
  | .serviceUnavailable _ => 503
  | .database _ => 500
  | .serialization _ => 500
  | .signing _ => 500

/-- `Error::into_response`: the pair (HTTP status, body). -/
def intoResponse (e : Err) : Nat × String := (statusOf e, clientMessage e)

/-- The bare kind (constructor) of an error, detail forgotten. -/
inductive ErrKind where
  | tokenExpired
  | invalidSignature
  | invalidToken
  | replayDetected
  | validation
  | serviceUnavailable
  | database
  | serialization
  | base64
  | signing
deriving DecidableEq

def errKind : Err → ErrKind
  | .tokenExpired => .tokenExpired
  | .invalidSignature => .invalidSignature
  | .invalidToken _ => .invalidToken
  | .replayDetected _ => .replayDetected
  | .validation _ => .validation
  | .serviceUnavailable _ => .serviceUnavailable
  | .database _ => .database
  | .serialization _ => .serialization
  | .base64 _ => .base64
  | .signing _ => .signing

/-- Kind of the error of a fallible result, if any. -/
def exceptErrKind {α : Type} : Except Err α → Option ErrKind
  | .error e => some (errKind e)
  | .ok _ => none

/-! ### Claims (src/token/claims.rs) -/

/-- The `Claims` struct. Timestamps are modelled as integer instants. -/
structure Claims where
  jti : String
  sub : String
  action : String
  iat : Int
  exp : Int
deriving DecidableEq

/-- `Claims::is_expired`: `Utc::now() > self.exp`, at explicit time `now`. -/
def isExpired (now : Int) (c : Claims) : Bool := decide (c.exp < now)

/-! ### External libraries: serde_json and ed25519-dalek.

The repository calls them through this interface. Keys are drawn from an
abstract index type (`Nat`); `vkOf` maps a signing key to its verifying
key, `edSign k m` is the 64-byte signature of message `m` under `k`, and
`edVerify vk m s` is signature verification. -/

structure Ext where
  ser : Claims → List Nat
  deser : List Nat → Option Claims
  edSign : Nat → List Nat → List Nat
  edVerify : Nat → List Nat → List Nat → Bool
  vkOf : Nat → Nat

/-! ### Token signing and verification (src/token/sign.rs, src/token/verify.rs) -/

/-- `sign_token` of src/token/sign.rs: base64url-encode the serialized
claims, sign the ASCII bytes of that segment, and join with a dot (46). -/
def sign_token (E : Ext) (c : Claims) (k : Nat) : List Nat :=
  b64Encode (E.ser c) ++ 46 :: b64Encode (E.edSign k (b64Encode (E.ser c)))

/-- `validate_base64_url` of src/token/verify.rs: ASCII alphanumeric,
or one of `-` (45), `_` (95), `=` (61). -/
def validB64Byte (b : Nat) : Bool :=
  decide ((65 ≤ b ∧ b ≤ 90) ∨ (97 ≤ b ∧ b ≤ 122) ∨ (48 ≤ b ∧ b ≤ 57) ∨
    b = 45 ∨ b = 95 ∨ b = 61)

def validSegment (s : List Nat) : Bool := s.all validB64Byte

/-- `str::split_once` on a separator byte: split at the first occurrence. -/
def splitOnce (sep : Nat) : List Nat → Option (List Nat × List Nat)
  | [] => none
  | b :: rest =>
    if b = sep then some ([], rest)
    else
      match splitOnce sep rest with
      | some (p, q) => some (b :: p, q)
      | none => none

/-- `verify_token` of src/token/verify.rs, at explicit time `now`.
The detail strings of the `base64`, `serialization` and 64-byte-check
errors stand for the display text of the foreign error values. -/
def verify_token (E : Ext) (now : Int) (token : List Nat) (vk : Nat) :
    Except Err Claims :=
  if 2048 < token.length then .error (.invalidToken "token exceeds size limit")
  else
    match splitOnce 46 token with
    | none => .error (.invalidToken "missing separator")
    | some (payloadB64, sigB64) =>
      if validSegment payloadB64 = false then
        .error (.invalidToken "invalid base64url characters")
      else if validSegment sigB64 = false then
        .error (.invalidToken "invalid base64url characters")
      else
        match b64Decode sigB64 with
        | none => .error (.base64 "signature decode failed")
        | some sigBytes =>
          if sigBytes.length = 64 then
            if E.edVerify vk payloadB64 sigBytes then
              match b64Decode payloadB64 with
              | none => .error (.base64 "payload decode failed")
              | some payloadBytes =>
                match E.deser payloadBytes with
                | none => .error (.serialization "claims parse failed")
                | some claims =>
                  if isExpired now claims then .error .tokenExpired
                  else .ok claims
            else .error .invalidSignature
          else .error (.invalidToken "signature length not 64")

/-! ### Replay store (src/jti/memory.rs) -/

/-- `JtiStore`: map from jti to expiry, plus the capacity bound. -/
structure JtiStore where
  entries : List (String × Int)
  maxCapacity : Nat

/-- `cleanup_expired_inner`: retain entries whose `exp > now`. -/
def cleanupExpiredInner (now : Int) (entries : List (String × Int)) :
    List (String × Int) :=
  entries.filter (fun p => decide (now < p.2))

/-- `JtiStore::check_and_insert`, at explicit time `now`: evict expired
entries, then check capacity, then check for a duplicate, then insert.
Returns the result together with the store after the call. -/
def check_and_insert (st : JtiStore) (now : Int) (jti : String) (exp : Int) :
    Except Err Unit × JtiStore :=
  let entries := cleanupExpiredInner now st.entries
  if st.maxCapacity ≤ entries.length then
    (.error (.serviceUnavailable "JTI store at capacity"), ⟨entries, st.maxCapacity⟩)
  else if (entries.lookup jti).isSome then
    (.error (.replayDetected jti), ⟨entries, st.maxCapacity⟩)
  else
    (.ok (), ⟨(jti, exp) :: entries, st.maxCapacity⟩)

/-- A sequence of `check_and_insert` calls with one fixed jti and expiry,
one call per element of the list of call times, threading the store. -/
def runSameJti (st : JtiStore) (jti : String) (exp : Int) :
    List Int → List (Except Err Unit)
  | [] => []
  | now :: rest =>
    (check_and_insert st now jti exp).1 ::
      runSameJti (check_and_insert st now jti exp).2 jti exp rest

/-! ### Policy engine (src/policy.rs) -/

structure Violation where
  action_type : List Char
  limit : Nat
  requested : Nat
deriving DecidableEq

/-- `parse_action_type`: the prefix of the action up to the first `:`
(the whole string when there is none). -/
def parse_action_type (action : List Char) : List Char :=
  action.takeWhile (fun c => decide (c ≠ ':'))

/-- `str::split(':')` on the action string. -/
def splitColon : List Char → List (List Char)
  | [] => [[]]
  | c :: rest =>
    if c = ':' then [] :: splitColon rest
    else
      match splitColon rest with
      | s :: ss => (c :: s) :: ss
      | [] => [[c]]

def amountLit : List Char := ['a', 'm', 'o', 'u', 'n', 't']

def isDigitCh (c : Char) : Bool := decide (48 ≤ c.toNat ∧ c.toNat ≤ 57)

/-- Numeric value of a digit string, most significant digit first. -/
def digitsVal (ds : List Char) : Nat :=
  ds.foldl (fun acc c => acc * 10 + (c.toNat - 48)) 0

/-- `u64::from_str` strips one leading `+` sign (a `-` is not stripped
for an unsigned type and later fails as an invalid digit). -/
def stripPlus : List Char → List Char
  | [] => []
  | c :: r => if c = '+' then r else c :: r

/-- `str::parse::<u64>`: optional `+`, then a nonempty digit string
whose value fits in 64 bits. -/
def parseU64 (s : List Char) : Option Nat :=
  if stripPlus s = [] then none
  else if (stripPlus s).all isDigitCh then
    if digitsVal (stripPlus s) < 18446744073709551616 then
      some (digitsVal (stripPlus s))
    else none
  else none

/-- The scanning loop of `parse_amount`: on the first segment equal to
`amount` the function returns (the parse of the following segment, or
none), without scanning further. -/
def findAmount : List (List Char) → Option Nat
  | [] => none
  | seg :: rest =>
    if seg = amountLit then
      match rest with
      | [] => none
      | v :: _ => parseU64 v
    else findAmount rest

def parse_amount (action : List Char) : Option Nat :=
  findAmount (splitColon action)

/-- `PolicyEngine::check`. The limits map is an association list with
the lookup of `HashMap::get`. -/
def check (limits : List (List Char × Nat)) (action : List Char) :
    Except Violation Unit :=
  match limits.lookup (parse_action_type action) with
  | none => .ok ()
  | some maxAmount =>
    match parse_amount action with
    | none => .ok ()
    | some amount =>
      if maxAmount < amount then
        .error ⟨parse_action_type action, maxAmount, amount⟩
      else .ok ()

/-! ### Mint request validation (src/handlers/mint.rs) -/

structure MintRequest where
  sub : String
  action : String
  ttl_seconds : Int
  id_token : Option String

/-- UTF-8 byte width of a unicode scalar value. -/
def charUtf8Size (c : Char) : Nat :=
  if c.toNat < 128 then 1
  else if c.toNat < 2048 then 2
  else if c.toNat < 65536 then 3
  else 4

/-- Rust `str::len`: the UTF-8 byte length. -/
def strByteLen (s : String) : Nat :=
  s.toList.foldl (fun n ch => n + charUtf8Size ch) 0

/-- Rust `char::is_control`: the Unicode Cc category. -/
def isRustControl (c : Char) : Bool :=
  decide (c.toNat ≤ 31 ∨ (127 ≤ c.toNat ∧ c.toNat ≤ 159))

/-- The action alphabet of `validate_request`: ASCII alphanumeric,
underscore, colon, hyphen. -/
def isActionChar (c : Char) : Bool :=
  decide ((65 ≤ c.toNat ∧ c.toNat ≤ 90) ∨ (97 ≤ c.toNat ∧ c.toNat ≤ 122) ∨
    (48 ≤ c.toNat ∧ c.toNat ≤ 57) ∨ c = '_' ∨ c = ':' ∨ c = '-')

/-- `validate_request` of src/handlers/mint.rs. -/
def validate_request (req : MintRequest) : Except Err Unit :=
  if strByteLen req.sub = 0 ∨ 256 < strByteLen req.sub then
    .error (.invalidToken "sub must be 1-256 characters")
  else if req.sub.toList.any isRustControl then
    .error (.invalidToken "sub contains control characters")
  else if strByteLen req.action = 0 ∨ 64 < strByteLen req.action ∨
      req.action.toList.all isActionChar = false then
    .error (.invalidToken
      "action must be 1-64 chars (alphanumeric, underscore, colon, hyphen)")
  else .ok ()

/-- Well-formedness of a claims record as stated by the specification:
subject of 1-256 bytes free of control characters, action of 1-64 bytes
over the action alphabet. -/
def WellFormedClaims (c : Claims) : Prop :=
  (1 ≤ strByteLen c.sub ∧ strByteLen c.sub ≤ 256 ∧
    ∀ ch ∈ c.sub.toList, isRustControl ch = false) ∧
  (1 ≤ strByteLen c.action ∧ strByteLen c.action ≤ 64 ∧
    ∀ ch ∈ c.action.toList, isActionChar ch = true)

instance (c : Claims) : Decidable (WellFormedClaims c) := by
  unfold WellFormedClaims; infer_instance

/-! ### Decimal printing (`u64` display, for the policy limit law) -/

def digitChar (d : Nat) : Char :=
  match d with
  | 0 => '0'
  | 1 => '1'
  | 2 => '2'
  | 3 => '3'
  | 4 => '4'
  | 5 => '5'
  | 6 => '6'
  | 7 => '7'
  | 8 => '8'
  | _ => '9'

/-- Decimal representation of a natural number, no sign, no leading
zeros: the digit string `u64` display produces. -/
def decimal (n : Nat) : List Char :=
  if n < 10 then [digitChar n]
  else decimal (n / 10) ++ [digitChar (n % 10)]
termination_by n
decreasing_by
  exact Nat.div_lt_self (by omega) (by omega)

/-! ### Concrete instantiation of the external interface, used by the
witnesses: a one-byte serialization of a fixed record and an
equality-checking signature scheme. -/

def claims0 : Claims := ⟨"jti-1", "alice", "deploy", 0, 100⟩

def trivExt : Ext :=
  ⟨fun _ => [1],
   fun bs => if bs = [1] then some claims0 else none,
   fun _ _ => List.replicate 64 0,
   fun _ _ sg => sg == List.replicate 64 0,
   fun k => k⟩

/-! ## Lemmas about the base64url embedding -/

theorem byteToVal_valToByte : ∀ v, v < 64 → byteToVal (valToByte v) = some v := by
  decide

theorem valToByte_valid (v : Nat) : validB64Byte (valToByte v) = true := by
  simp only [validB64Byte, decide_eq_true_eq]
  unfold valToByte
  split_ifs <;> omega

theorem valToByte_ne_dot (v : Nat) : valToByte v ≠ 46 := by
  unfold valToByte
  split_ifs <;> omega

theorem b64_roundtrip :
    ∀ bs : List Nat, (∀ b ∈ bs, b < 256) → b64Decode (b64Encode bs) = some bs
  | [], _ => rfl
  | [a], h => by
    have ha : a < 256 := h a (by simp)
    simp only [b64Encode, b64Decode]
    rw [byteToVal_valToByte _ (by omega), byteToVal_valToByte _ (by omega)]
    simp only [Option.some.injEq, List.cons.injEq, and_true]
    rw [if_pos (by omega)]
    simp only [Option.some.injEq, List.cons.injEq, and_true]
    omega
  | [a, b], h => by
    have ha : a < 256 := h a (by simp)
    have hb : b < 256 := h b (by simp)
    simp only [b64Encode, b64Decode]
    rw [byteToVal_valToByte _ (by omega), byteToVal_valToByte _ (by omega),
      byteToVal_valToByte _ (by omega)]
    simp only []
    rw [if_pos (by omega)]
    simp only [Option.some.injEq, List.cons.injEq, and_true]
    omega
  | a :: b :: c :: d :: rest, h => by
    have ha : a < 256 := h a (by simp)
    have hb : b < 256 := h b (by simp)
    have hc : c < 256 := h c (by simp)
    have ih : b64Decode (b64Encode (d :: rest)) = some (d :: rest) :=
      b64_roundtrip (d :: rest) (fun x hx => h x (by simp [hx]))
    simp only [b64Encode, b64Decode]
    rw [byteToVal_valToByte _ (by omega), byteToVal_valToByte _ (by omega),
      byteToVal_valToByte _ (by omega), byteToVal_valToByte _ (by omega)]
    simp only [ih]
    simp only [Option.some.injEq, List.cons.injEq]
    refine ⟨by omega, by omega, by omega, trivial⟩
  | [a, b, c], h => by
    have ha : a < 256 := h a (by simp)
    have hb : b < 256 := h b (by simp)
    have hc : c < 256 := h c (by simp)
    have ih : b64Decode (b64Encode ([] : List Nat)) = some [] := rfl
    simp only [b64Encode, b64Decode]
    rw [byteToVal_valToByte _ (by omega), byteToVal_valToByte _ (by omega),
      byteToVal_valToByte _ (by omega), byteToVal_valToByte _ (by omega)]
    simp only [Option.some.injEq, List.cons.injEq]
    refine ⟨by omega, by omega, by omega, trivial⟩

theorem b64Encode_mem : ∀ bs : List Nat, ∀ x ∈ b64Encode bs, ∃ v, x = valToByte v
  | [], x, hx => by simp [b64Encode] at hx
  | [a], x, hx => by
    simp only [b64Encode, List.mem_cons, List.not_mem_nil, or_false] at hx
    rcases hx with h | h <;> exact ⟨_, h⟩
  | [a, b], x, hx => by
    simp only [b64Encode, List.mem_cons, List.not_mem_nil, or_false] at hx
    rcases hx with h | h | h <;> exact ⟨_, h⟩
  | a :: b :: c :: d :: rest, x, hx => by
    simp only [b64Encode, List.mem_cons] at hx
    rcases hx with h | h | h | h | h
    · exact ⟨_, h⟩
    · exact ⟨_, h⟩
    · exact ⟨_, h⟩
    · exact ⟨_, h⟩
    · exact b64Encode_mem (d :: rest) x h
  | [a, b, c], x, hx => by
    have : b64Encode [a, b, c] =
        [valToByte (a / 4), valToByte (a % 4 * 16 + b / 16),
          valToByte (b % 16 * 4 + c / 64), valToByte (c % 64)] := rfl
    rw [this] at hx
    simp only [List.mem_cons, List.not_mem_nil, or_false] at hx
    rcases hx with h | h | h | h <;> exact ⟨_, h⟩

theorem validSegment_b64Encode (bs : List Nat) :
    validSegment (b64Encode bs) = true := by
  simp only [validSegment, List.all_eq_true]
  intro x hx
  obtain ⟨v, rfl⟩ := b64Encode_mem bs x hx
  exact valToByte_valid v

theorem b64Encode_not_dot (bs : List Nat) : 46 ∉ b64Encode bs := by
  intro hmem
  obtain ⟨v, hv⟩ := b64Encode_mem bs 46 hmem
  exact valToByte_ne_dot v hv.symm

theorem b64Encode_len3 :
    ∀ bs : List Nat, (b64Encode bs).length * 3 ≤ 4 * bs.length + 8
  | [] => by simp [b64Encode]
  | [a] => by simp [b64Encode]
  | [a, b] => by simp [b64Encode]
  | a :: b :: c :: d :: rest => by
    have ih := b64Encode_len3 (d :: rest)
    simp only [b64Encode, List.length_cons] at ih ⊢
    omega
  | [a, b, c] => by
    have : b64Encode [a, b, c] =
        [valToByte (a / 4), valToByte (a % 4 * 16 + b / 16),
          valToByte (b % 16 * 4 + c / 64), valToByte (c % 64)] := rfl
    rw [this]
    simp

theorem splitOnce_append (sep : Nat) (p q : List Nat) (hp : sep ∉ p) :
    splitOnce sep (p ++ sep :: q) = some (p, q) := by
  induction p with
  | nil => simp [splitOnce]
  | cons b rest ih =>
    have hb : b ≠ sep := fun h => hp (by simp [h])
    have hrest : sep ∉ rest := fun h => hp (by simp [h])
    simp only [List.cons_append, splitOnce, if_neg hb, List.append_eq, ih hrest]

theorem validSegment_not_dot (s : List Nat) (h : validSegment s = true) :
    46 ∉ s := by
  intro hmem
  have := List.all_eq_true.mp h 46 hmem
  simp [validB64Byte] at this

/-! ## Lemmas about action parsing and decimal printing -/

theorem parse_action_type_append (ty rest : List Char) (hty : ':' ∉ ty) :
    parse_action_type (ty ++ ':' :: rest) = ty := by
  induction ty with
  | nil => simp [parse_action_type, List.takeWhile]
  | cons c cs ih =>
    have hc : c ≠ ':' := fun h => hty (by simp [h])
    have hcs : ':' ∉ cs := fun h => hty (by simp [h])
    simp only [parse_action_type, List.cons_append, List.takeWhile] at ih ⊢
    rw [decide_eq_true hc]
    simp only [List.append_eq, ih hcs]

theorem splitColon_append (ty rest : List Char) (hty : ':' ∉ ty) :
    splitColon (ty ++ ':' :: rest) = ty :: splitColon rest := by
  induction ty with
  | nil => simp [splitColon]
  | cons c cs ih =>
    have hc : c ≠ ':' := fun h => hty (by simp [h])
    have hcs : ':' ∉ cs := fun h => hty (by simp [h])
    simp only [List.cons_append, splitColon, if_neg hc, List.append_eq, ih hcs]

theorem splitColon_no_colon (l : List Char) (hl : ':' ∉ l) :
    splitColon l = [l] := by
  induction l with
  | nil => rfl
  | cons c cs ih =>
    have hc : c ≠ ':' := fun h => hl (by simp [h])
    have hcs : ':' ∉ cs := fun h => hl (by simp [h])
    simp only [splitColon, if_neg hc, ih hcs]

theorem findAmount_append (pre : List (List Char)) (xs : List (List Char))
    (hpre : amountLit ∉ pre) : findAmount (pre ++ xs) = findAmount xs := by
  induction pre with
  | nil => rfl
  | cons seg rest ih =>
    have hseg : seg ≠ amountLit := fun h => hpre (by simp [h])
    have hrest : amountLit ∉ rest := fun h => hpre (by simp [h])
    simp only [List.cons_append, findAmount, if_neg hseg, List.append_eq, ih hrest]

theorem digitChar_spec : ∀ d, d < 10 →
    isDigitCh (digitChar d) = true ∧ (digitChar d).toNat - 48 = d ∧
    digitChar d ≠ '+' ∧ digitChar d ≠ ':' := by
  decide

theorem digitsVal_append_digit (xs : List Char) (c : Char) :
    digitsVal (xs ++ [c]) = digitsVal xs * 10 + (c.toNat - 48) := by
  simp [digitsVal, List.foldl_append]

theorem decimal_spec (n : Nat) :
    decimal n ≠ [] ∧ (∀ c ∈ decimal n, isDigitCh c = true) ∧
    digitsVal (decimal n) = n := by
  induction n using Nat.strong_induction_on with
  | _ n ih =>
    rw [decimal]
    by_cases h : n < 10
    · rw [if_pos h]
      refine ⟨by simp, ?_, ?_⟩
      · intro c hc
        simp only [List.mem_singleton] at hc
        subst hc
        exact (digitChar_spec n h).1
      · simpa [digitsVal] using (digitChar_spec n h).2.1
    · rw [if_neg h]
      have hdiv : n / 10 < n := Nat.div_lt_self (by omega) (by omega)
      obtain ⟨ihne, ihdig, ihval⟩ := ih (n / 10) hdiv
      have hmod : n % 10 < 10 := Nat.mod_lt _ (by omega)
      refine ⟨by simp, ?_, ?_⟩
      · intro c hc
        rcases List.mem_append.mp hc with hmem | hmem
        · exact ihdig c hmem
        · simp only [List.mem_singleton] at hmem
          subst hmem
          exact (digitChar_spec _ hmod).1
      · rw [digitsVal_append_digit, ihval, (digitChar_spec _ hmod).2.1]
        omega

theorem decimal_no_colon (n : Nat) : ':' ∉ decimal n := by
  intro hmem
  have := (decimal_spec n).2.1 ':' hmem
  simp [isDigitCh] at this

theorem stripPlus_decimal (n : Nat) : stripPlus (decimal n) = decimal n := by
  obtain ⟨ne, dig, _⟩ := decimal_spec n
  cases hd : decimal n with
  | nil => exact absurd hd ne
  | cons c cs =>
    have hc : isDigitCh c = true := dig c (hd ▸ List.mem_cons_self c cs)
    have : c ≠ '+' := by
      intro h
      rw [h] at hc
      simp [isDigitCh] at hc
    simp [stripPlus, this]

theorem parseU64_decimal (a : Nat) (ha : a < 18446744073709551616) :
    parseU64 (decimal a) = some a := by
  obtain ⟨ne, dig, val⟩ := decimal_spec a
  unfold parseU64
  rw [stripPlus_decimal]
  rw [if_neg ne, if_pos (List.all_eq_true.mpr dig), val, if_pos ha]

/-! ## Claim C3: replay response shape -/

/-- C3 counterexample: on a replayed token the store yields
`ReplayDetected`, and the response it maps to has status 409 but body
"token rejected", not the claimed "token already used". -/
theorem replay_body_counterexample :
    intoResponse (.replayDetected "jti-1") = (409, "token rejected") ∧
    intoResponse (.replayDetected "jti-1") ≠ (409, "token already used") := by
  constructor
  · rfl
  · decide

/-- C3 amended: when the replay store reports `ReplayDetected`, the HTTP
response has status 409 and its body is the fixed categorical label
"token rejected", independent of the jti. -/
theorem replay_response_shape (j : String) :
    intoResponse (.replayDetected j) = (409, "token rejected") := rfl

/-! ## Claim C4: validation failure mapping -/

/-- C4: a mint request with an empty sub is rejected by
`validate_request` with `Error::InvalidToken`, whose response is status
401 with body "invalid token" — not the specified 400 with body
"invalid request". -/
theorem empty_sub_validation_response :
    validate_request ⟨"", "deploy", 60, none⟩ =
      .error (.invalidToken "sub must be 1-256 characters") ∧
    intoResponse (.invalidToken "sub must be 1-256 characters") =
      (401, "invalid token") ∧
    (401 : Nat) ≠ 400 ∧ ("invalid token" : String) ≠ "invalid request" := by
  refine ⟨?_, rfl, by decide, by decide⟩
  rfl

/-! ## Claim C8: redaction noninterference for 5xx kinds -/

/-- C8: each 500-mapped error kind (Database, Serialization, Signing)
has a client body that is a fixed string: two errors of the same kind
with different inner details produce identical client bodies. -/
theorem redaction_5xx_fixed (d1 d2 : String) :
    clientMessage (.database d1) = clientMessage (.database d2) ∧
    clientMessage (.serialization d1) = clientMessage (.serialization d2) ∧
    clientMessage (.signing d1) = clientMessage (.signing d2) ∧
    statusOf (.database d1) = 500 ∧ statusOf (.serialization d1) = 500 ∧
    statusOf (.signing d1) = 500 :=
  ⟨rfl, rfl, rfl, rfl, rfl, rfl⟩

/-! ## Claims C2, C7, C10: the replay store -/

theorem check_and_insert_fresh (cap : Nat) (now : Int) (j : String) (e : Int)
    (hcap : 0 < cap) :
    check_and_insert ⟨[], cap⟩ now j e = (.ok (), ⟨[(j, e)], cap⟩) := by
  simp only [check_and_insert, cleanupExpiredInner, List.filter_nil,
    List.length_nil, List.lookup_nil, Option.isSome_none, Bool.false_eq_true,
    if_false, if_neg (by omega : ¬ cap ≤ 0)]

theorem runSameJti_after_insert (cap : Nat) (j : String) (e : Int)
    (ts : List Int) (hcap : 2 ≤ cap) (hts : ∀ t ∈ ts, t < e) :
    runSameJti ⟨[(j, e)], cap⟩ j e ts =
      ts.map (fun _ => .error (.replayDetected j)) := by
  induction ts with
  | nil => rfl
  | cons t rest ih =>
    have ht : t < e := hts t (by simp)
    have hclean : cleanupExpiredInner t [(j, e)] = [(j, e)] := by
      simp [cleanupExpiredInner, List.filter, decide_eq_true ht]
    have hstep : check_and_insert ⟨[(j, e)], cap⟩ t j e =
        (.error (.replayDetected j), ⟨[(j, e)], cap⟩) := by
      simp only [check_and_insert, hclean, List.length_cons, List.length_nil]
      rw [if_neg (by omega : ¬ cap ≤ 0 + 1)]
      simp [List.lookup]
    simp only [runSameJti, hstep, List.map_cons]
    exact congrArg _ (ih (fun u hu => hts u (by simp [hu])))

/-- C2: on a fresh store whose capacity keeps it below the limit, any
sequence of `check_and_insert` calls with one jti and a live expiry has
the first call return Ok and every later call return `ReplayDetected`
with that jti: at most one redemption succeeds, and the critical section
(modelled by sequential execution of the locked body) forbids two
successes under any interleaving. -/
theorem at_most_once_redemption (cap : Nat) (j : String) (e : Int)
    (t : Int) (ts : List Int) (hcap : 2 ≤ cap) (ht : t < e)
    (hts : ∀ u ∈ ts, u < e) :
    runSameJti ⟨[], cap⟩ j e (t :: ts) =
      .ok () :: ts.map (fun _ => .error (.replayDetected j)) := by
  simp only [runSameJti, check_and_insert_fresh cap t j e (by omega)]
  exact congrArg _ (runSameJti_after_insert cap j e ts hcap hts)

/-- C2 witness: three calls with jti "jti-1" and expiry 300 at times
0, 1, 2 on a fresh default-capacity store: Ok, then two replays. -/
theorem at_most_once_redemption_witness :
    runSameJti ⟨[], 100000⟩ "jti-1" 300 (0 :: [1, 2]) =
      .ok () :: [1, 2].map (fun _ => .error (.replayDetected "jti-1")) :=
  at_most_once_redemption 100000 "jti-1" 300 0 [1, 2] (by decide) (by decide)
    (by decide)

/-- C7: when every stored entry is expired at call time, a call with a
fresh jti and a live expiry succeeds regardless of the prior
cardinality (even at capacity), because eviction runs before the
capacity check. -/
theorem eviction_liveness (st : JtiStore) (now : Int) (j : String) (e : Int)
    (hall : ∀ p ∈ st.entries, p.2 ≤ now) (hcap : 0 < st.maxCapacity)
    (hfresh : ∀ p ∈ st.entries, p.1 ≠ j) (he : now < e) :
    (check_and_insert st now j e).1 = .ok () := by
  have hclean : cleanupExpiredInner now st.entries = [] := by
    rw [cleanupExpiredInner, List.filter_eq_nil]
    intro p hp
    have := hall p hp
    simp only [decide_eq_true_eq]
    omega
  simp only [check_and_insert, hclean, List.length_nil, List.lookup_nil,
    Option.isSome_none, Bool.false_eq_true, if_false,
    if_neg (by omega : ¬ st.maxCapacity ≤ 0)]

/-- C7 witness: a store of capacity 2 holding exactly 2 entries, both
expired at time 2; the insert of a fresh jti still succeeds. -/
theorem eviction_liveness_witness :
    (check_and_insert ⟨[("a", 1), ("b", 2)], 2⟩ 2 "fresh" 10).1 = .ok () :=
  eviction_liveness ⟨[("a", 1), ("b", 2)], 2⟩ 2 "fresh" 10 (by decide)
    (by decide) (by decide) (by decide)

/-- C10: the store accepts an entry whose expiry is already in the past
(`e ≤ now`), and a second call with the same jti also returns Ok: the
opportunistic eviction removes the dead entry before the duplicate
check, so replay protection lasts only while the stored expiry is
strictly in the future. -/
theorem dead_entries_unprotected (cap : Nat) (j : String) (e now1 now2 : Int)
    (hcap : 0 < cap) (h1 : e ≤ now1) (h12 : now1 ≤ now2) :
    (check_and_insert ⟨[], cap⟩ now1 j e).1 = .ok () ∧
    (check_and_insert (check_and_insert ⟨[], cap⟩ now1 j e).2 now2 j e).1 =
      .ok () := by
  rw [check_and_insert_fresh cap now1 j e hcap]
  refine ⟨rfl, ?_⟩
  have hclean : cleanupExpiredInner now2 [(j, e)] = [] := by
    rw [cleanupExpiredInner, List.filter_eq_nil]
    intro p hp
    simp only [List.mem_singleton] at hp
    subst hp
    simp only [decide_eq_true_eq]
    omega
  simp only [check_and_insert, hclean, List.length_nil, List.lookup_nil,
    Option.isSome_none, Bool.false_eq_true, if_false,
    if_neg (by omega : ¬ cap ≤ 0)]

/-- C10 witness: a store of capacity 1, a dead entry inserted at time 0
with expiry 0, reinserted at time 1: both calls return Ok. -/
theorem dead_entries_unprotected_witness :
    (check_and_insert ⟨[], 1⟩ 0 "jti-dead" 0).1 = .ok () ∧
    (check_and_insert (check_and_insert ⟨[], 1⟩ 0 "jti-dead" 0).2 1
        "jti-dead" 0).1 = .ok () :=
  dead_entries_unprotected 1 "jti-dead" 0 0 1 (by decide) (by decide)
    (by decide)

/-! ## Claims C6, C9: the policy engine -/

/-- C6 counterexample: with the policy entry ("amount", 5) and amount 7,
`check "amount:amount:7"` is Ok although 7 > 5 — the amount scan matches
the leading type segment "amount", fails to parse the following segment
"amount", and passes; so Ok is not equivalent to amount ≤ limit. -/
theorem policy_limit_counterexample :
    check [("amount".toList, 5)] ("amount:amount:7".toList) = .ok () ∧
    ¬ (7 : Nat) ≤ 5 := by
  constructor
  · rfl
  · decide

/-- C6 amended: for a policy entry (type, limit) whose key contains no
colon and is not the literal "amount", and any 64-bit amount printed in
decimal, `check "type:amount:amount"` is Ok exactly when the amount is
at most the limit, and on failure the violation carries that
action type, the configured limit, and the requested amount. -/
theorem policy_limit_law (limits : List (List Char × Nat)) (ty : List Char)
    (lim a : Nat) (hlook : limits.lookup ty = some lim) (hty : ':' ∉ ty)
    (hne : ty ≠ amountLit) (ha : a < 18446744073709551616) :
    check limits (ty ++ ':' :: (amountLit ++ ':' :: decimal a)) =
      if a ≤ lim then .ok () else .error ⟨ty, lim, a⟩ := by
  have htype : parse_action_type (ty ++ ':' :: (amountLit ++ ':' :: decimal a))
      = ty := parse_action_type_append ty _ hty
  have hsplit : splitColon (ty ++ ':' :: (amountLit ++ ':' :: decimal a)) =
      ty :: amountLit :: [decimal a] := by
    rw [splitColon_append ty _ hty,
      splitColon_append amountLit _ (by decide),
      splitColon_no_colon _ (decimal_no_colon a)]
  have hamount : parse_amount (ty ++ ':' :: (amountLit ++ ':' :: decimal a)) =
      some a := by
    rw [parse_amount, hsplit]
    simp only [findAmount, if_neg hne, if_pos rfl]
    exact parseU64_decimal a ha
  rw [check, htype, hlook, hamount]
  by_cases hle : a ≤ lim
  · rw [if_pos hle]
    simp only [if_neg (by omega : ¬ lim < a)]
  · rw [if_neg hle]
    simp only [if_pos (by omega : lim < a)]

/-- C6 witness: policy ("refund", 50) and amount 51: the check fails
with the violation (refund, 50, 51). -/
theorem policy_limit_law_witness :
    check [("refund".toList, 50)]
        ("refund".toList ++ ':' :: (amountLit ++ ':' :: decimal 51)) =
      .error ⟨"refund".toList, 50, 51⟩ := by
  have h := policy_limit_law [("refund".toList, 50)] "refund".toList 50 51
    (by rfl) (by decide) (by decide) (by decide)
  simpa using h

/-- C9: the amount scan stops at the first "amount" segment: whenever
the segment immediately after the first "amount" does not parse as a
u64, `check` returns Ok for every limits map — later "amount" segments,
however large their numbers, are never examined. -/
theorem amount_parse_stops_at_first (limits : List (List Char × Nat))
    (action : List Char) (pre : List (List Char)) (v : List Char)
    (rest : List (List Char))
    (hsplit : splitColon action = pre ++ amountLit :: v :: rest)
    (hpre : amountLit ∉ pre) (hv : parseU64 v = none) :
    check limits action = .ok () := by
  have hamount : parse_amount action = none := by
    rw [parse_amount, hsplit, findAmount_append pre _ hpre]
    simp only [findAmount, if_pos rfl]
    exact hv
  rw [check]
  cases hlook : limits.lookup (parse_action_type action) with
  | none => rfl
  | some lim => rw [hamount]

/-- C9 witness: with policy ("type", 5), the action
"type:amount:x:amount:999999" passes the check although 999999 > 5,
because the segment after the first "amount" is "x". -/
theorem amount_parse_stops_at_first_witness :
    check [("type".toList, 5)] ("type:amount:x:amount:999999".toList) =
      .ok () :=
  amount_parse_stops_at_first [("type".toList, 5)]
    ("type:amount:x:amount:999999".toList) ["type".toList] "x".toList
    ["amount".toList, "999999".toList] (by decide) (by decide) (by rfl)

/-! ## Claims C1, C5: the token pipeline -/

theorem verify_token_of_parts (E : Ext) (now : Int) (vk : Nat)
    (payload sig : List Nat)
    (hpb : ∀ b ∈ payload, b < 256) (hsb : ∀ b ∈ sig, b < 256)
    (hsl : sig.length = 64)
    (hlen : (b64Encode payload ++ 46 :: b64Encode sig).length ≤ 2048)
    (hv : E.edVerify vk (b64Encode payload) sig = true) :
    verify_token E now (b64Encode payload ++ 46 :: b64Encode sig) vk =
      (match E.deser payload with
       | none => .error (.serialization "claims parse failed")
       | some claims =>
         if isExpired now claims then .error .tokenExpired
         else .ok claims) := by
  rw [verify_token, if_neg (by omega),
    splitOnce_append 46 _ _ (b64Encode_not_dot payload)]
  simp only [validSegment_b64Encode, b64_roundtrip sig hsb,
    b64_roundtrip payload hpb, hsl, hv, Bool.true_eq_false, if_false,
    if_true, if_pos rfl]

/-- C1: round-trip signature binding: for a well-formed claims record
that is not expired at verification time, verifying the token produced
by `sign_token` under the signing key's verifying key returns exactly
the claims that were signed. The hypotheses are the contracts of the
external libraries: JSON serialization round-trips (with claims of the
stated shape serializing to at most 1400 bytes), and Ed25519 signatures
are 64 bytes and verify under the matching verifying key. -/
theorem token_sign_verify_roundtrip (E : Ext) (c : Claims) (k : Nat)
    (now : Int) (hwf : WellFormedClaims c)
    (hround : E.deser (E.ser c) = some c)
    (hserBytes : ∀ b ∈ E.ser c, b < 256)
    (hserLen : (E.ser c).length ≤ 1400)
    (hsigLen : ∀ m, (E.edSign k m).length = 64)
    (hsigBytes : ∀ m, ∀ b ∈ E.edSign k m, b < 256)
    (hvf : ∀ m, E.edVerify (E.vkOf k) m (E.edSign k m) = true)
    (hexp : ¬ c.exp < now) :
    verify_token E now (sign_token E c k) (E.vkOf k) = .ok c := by
  have hlen : (b64Encode (E.ser c) ++
      46 :: b64Encode (E.edSign k (b64Encode (E.ser c)))).length ≤ 2048 := by
    have h1 := b64Encode_len3 (E.ser c)
    have h2 := b64Encode_len3 (E.edSign k (b64Encode (E.ser c)))
    rw [hsigLen _] at h2
    simp only [List.length_append, List.length_cons]
    omega
  rw [sign_token, verify_token_of_parts E now (E.vkOf k) (E.ser c)
    (E.edSign k (b64Encode (E.ser c))) hserBytes (hsigBytes _) (hsigLen _)
    hlen (hvf _), hround]
  simp [isExpired, hexp]

/-- C1 witness: a concrete instantiation of the external interface
satisfying the library contracts, applied to a concrete record. -/
theorem token_sign_verify_roundtrip_witness :
    verify_token trivExt 0 (sign_token trivExt claims0 7) (trivExt.vkOf 7) =
      .ok claims0 :=
  token_sign_verify_roundtrip trivExt claims0 7 0 (by decide) (by rfl)
    (by decide) (by decide) (fun m => by simp [trivExt])
    (fun m b hb => by
      have hb0 : b = 0 := by simpa [trivExt] using hb
      omega)
    (fun m => by simp [trivExt]) (by decide)

/-- C5 counterexample: the token "AAAA.A" passes the character whitelist
in both segments, its signature segment "A" is not valid padless
base64url, and `verify_token` returns the Base64 error kind — not the
InvalidToken kind the claim states. -/
theorem sig_segment_base64_counterexample :
    validSegment [65, 65, 65, 65] = true ∧ validSegment [65] = true ∧
    verify_token trivExt 0 [65, 65, 65, 65, 46, 65] 0 =
      .error (.base64 "signature decode failed") ∧
    exceptErrKind (verify_token trivExt 0 [65, 65, 65, 65, 46, 65] 0) ≠
      some ErrKind.invalidToken := by
  refine ⟨rfl, rfl, rfl, by decide⟩

/-- C5 amended: for a token whose two segments pass the character
whitelist, if the signature segment fails padless base64url decoding
the result is the Base64 error kind (status 400), while if it decodes
to a byte string that is not 64 bytes long the result is the
InvalidToken kind. -/
theorem sig_segment_decode_error_kinds (E : Ext) (now : Int) (vk : Nat)
    (p s : List Nat) (hp : validSegment p = true) (hs : validSegment s = true)
    (hlen : (p ++ 46 :: s).length ≤ 2048) :
    (b64Decode s = none →
      verify_token E now (p ++ 46 :: s) vk =
        .error (.base64 "signature decode failed")) ∧
    (∀ bs, b64Decode s = some bs → bs.length ≠ 64 →
      verify_token E now (p ++ 46 :: s) vk =
        .error (.invalidToken "signature length not 64")) := by
  have hnd : 46 ∉ p := validSegment_not_dot p hp
  constructor
  · intro hdec
    rw [verify_token, if_neg (by omega), splitOnce_append 46 p s hnd]
    simp only [hp, hs, hdec, Bool.true_eq_false, if_false]
  · intro bs hdec hne
    rw [verify_token, if_neg (by omega), splitOnce_append 46 p s hnd]
    simp only [hp, hs, hdec, Bool.true_eq_false, if_false, if_neg hne]

/-- C5 witness: the token "BBBB.B": both segments pass the whitelist and
the one-character signature segment fails base64url decoding, giving
the Base64 error kind. -/
theorem sig_segment_decode_error_kinds_witness :
    verify_token trivExt 0 ([66, 66, 66, 66] ++ 46 :: [66]) 0 =
      .error (.base64 "signature decode failed") :=
  (sig_segment_decode_error_kinds trivExt 0 0 [66, 66, 66, 66] [66]
    (by decide) (by decide) (by decide)).1 (by rfl)

end AgentMint
